import Mathlib

/-!
Verification development for the go-chartmuseum client library.

The Go sources `pkg/chartmuseum/client.go` and `pkg/chartmuseum/charts.go`
are shallowly embedded below: pure Lean functions mirror the Go functions,
Go pointers to strings become `Option String` (with `none` = nil pointer),
Go `(value, error)` pairs become explicit products or `Except`, and the
HTTP transport is an explicit function argument.  Standard-library
collaborators (`net/url`, `fmt`, `encoding/json`, `net/http` sniffing,
`os.File`) are modelled by small executable functions that are faithful on
the behaviours this client exercises; each such model carries a doc comment
stating the abbreviation it makes.
-/

namespace CM

/-- Character lists; the Go string model used by the parsing layers. -/
abbrev Str := List Char

deriving instance DecidableEq for Except

/-! ## Model of Go `fmt` for format strings applied to zero arguments

`parseResponse` calls `fmt.Errorf(response.Error)`, i.e. it uses the
server-supplied error text as a format string with no arguments.  The model
below follows `fmt.doPrintf`: literal characters are copied; `%%` emits `%`;
a verb parsed after flags, width and precision with no argument available
emits `%!v(MISSING)`; a `*` width or precision with no argument emits
`%!(BADWIDTH)` / `%!(BADPREC)`; a format string ending inside a verb
specification emits `%!(NOVERB)`.  (Explicit argument indexes `%[n]v` are
not modelled.) -/

/-- Flag characters accepted by Go's format parser. -/
def goFmtFlag (c : Char) : Bool :=
  c = '#' || c = '0' || c = '+' || c = '-' || c = ' '

/-- Output of Go `fmt` for a lone `%` at the end of the format string. -/
def noVerbStr : Str := "%!(NOVERB)".data

/-- Output of Go `fmt` for a `*` width with no argument available. -/
def badWidthStr : Str := "%!(BADWIDTH)".data

/-- Output of Go `fmt` for a `*` precision with no argument available. -/
def badPrecStr : Str := "%!(BADPREC)".data

/-- Output of Go `fmt` for a verb with no argument available. -/
def missingVerb (v : Char) : Str := "%!".data ++ [v] ++ "(MISSING)".data

/-- Position inside a `%` verb specification while scanning a format
string: scanning flags, width digits, the spot after a `*` width, the spot
just after `.`, precision digits, or the spot where only the verb character
may follow. -/
inductive FmtState where
  | normal
  | flags
  | width
  | dotOrVerb
  | precStart
  | precDigits
  | verbOnly
  deriving DecidableEq

/-- One pass of Go's `doPrintf` over the format string with an empty
argument list, as a state machine over the remaining characters. -/
def fmtRun : FmtState → Str → Str
  | .normal, [] => []
  | .flags, [] => noVerbStr
  | .width, [] => noVerbStr
  | .dotOrVerb, [] => noVerbStr
  | .precStart, [] => noVerbStr
  | .precDigits, [] => noVerbStr
  | .verbOnly, [] => noVerbStr
  | .normal, c :: rest =>
    if c = '%' then fmtRun .flags rest else c :: fmtRun .normal rest
  | .flags, c :: rest =>
    if goFmtFlag c then fmtRun .flags rest
    else if c = '*' then badWidthStr ++ fmtRun .dotOrVerb rest
    else if c.isDigit then fmtRun .width rest
    else if c = '.' then fmtRun .precStart rest
    else (if c = '%' then ['%'] else missingVerb c) ++ fmtRun .normal rest
  | .width, c :: rest =>
    if c.isDigit then fmtRun .width rest
    else if c = '.' then fmtRun .precStart rest
    else (if c = '%' then ['%'] else missingVerb c) ++ fmtRun .normal rest
  | .dotOrVerb, c :: rest =>
    if c = '.' then fmtRun .precStart rest
    else (if c = '%' then ['%'] else missingVerb c) ++ fmtRun .normal rest
  | .precStart, c :: rest =>
    if c = '*' then badPrecStr ++ fmtRun .verbOnly rest
    else if c.isDigit then fmtRun .precDigits rest
    else (if c = '%' then ['%'] else missingVerb c) ++ fmtRun .normal rest
  | .precDigits, c :: rest =>
    if c.isDigit then fmtRun .precDigits rest
    else (if c = '%' then ['%'] else missingVerb c) ++ fmtRun .normal rest
  | .verbOnly, c :: rest =>
    (if c = '%' then ['%'] else missingVerb c) ++ fmtRun .normal rest

/-- Model of `fmt.Errorf(format)` / `fmt.Sprintf(format)` called with no
variadic arguments: the message text produced from the format string. -/
def fmtNoArgs (s : String) : String := ⟨fmtRun .normal s.data⟩

/-- Whether a string contains the `%` character (the case in which
`fmtNoArgs` can differ from the identity). -/
def hasPercent (s : String) : Bool := s.data.any (fun c => c = '%')

/-! ## Response envelope and `parseResponse` (client.go lines 40-49, 163-174) -/

/-- The JSON fields of the ChartMuseum response envelope, the decodable part
of `Response` (client.go lines 44-48).  Absent JSON fields decode to the
zero values given here as defaults. -/
structure Envelope where
  message : String := ""
  error : String := ""
  saved : Bool := false
  deleted : Bool := false
  healthy : Bool := false
  deriving DecidableEq

/-- Model of the `*http.Response` consumed by `parseResponse`.  The raw body
is abstracted to the outcome of the standard-library calls made on it:
`bodyReadErr` is whether `ioutil.ReadAll` fails, and `bodyDecoded` is the
envelope produced by the best-effort `json.Unmarshal` of the read bytes
(the zero envelope when the body is not valid JSON, matching Go leaving the
struct untouched; `parseResponse` ignores the unmarshal error either way). -/
structure GoHTTPResponse where
  statusCode : Nat
  bodyReadErr : Bool
  bodyDecoded : Envelope
  deriving DecidableEq

/-- The `Response` returned by the client: the raw HTTP response together
with the decoded envelope fields (client.go lines 41-49). -/
structure Response where
  http : GoHTTPResponse
  envelope : Envelope
  deriving DecidableEq

/-- Embedding of `parseResponse` (client.go lines 163-174): read the body,
best-effort decode the envelope, return it with no error for 2xx status
codes and with `fmt.Errorf(response.Error)` otherwise. -/
def parseResponse (r : GoHTTPResponse) : Response × Option String :=
  let env : Envelope := if r.bodyReadErr then {} else r.bodyDecoded
  let response : Response := ⟨r, env⟩
  if 200 ≤ r.statusCode ∧ r.statusCode ≤ 299 then (response, none)
  else (response, some (fmtNoArgs env.error))

/-! ## Model of `net/url` (standard library collaborator)

`NewClient`, `NewRequest` and `NewUploadRequest` use `url.Parse`,
`URL.Parse` / `ResolveReference` and the URL's `Path` field.  The model
keeps the scheme / host / path structure relevant to this client.
Abbreviations relative to the full `net/url`: user info, query, fragment,
percent-escapes and host validation are not modelled; an opaque part after
the scheme is kept in `path`; parse failure is modelled for the two causes
this layer can exhibit on arbitrary text, a control character in the URL
and an empty scheme before `:` (`url.Parse`'s "missing protocol scheme"). -/

/-- ASCII control characters, which `url.Parse` rejects anywhere in a URL. -/
def isCtlChar (c : Char) : Bool := c.toNat < 32 || c.toNat = 127

/-- First character allowed in a URL scheme (Go `getScheme`). -/
def schemeHeadChar (c : Char) : Bool := c.isAlpha

/-- Subsequent characters allowed in a URL scheme (Go `getScheme`). -/
def schemeTailChar (c : Char) : Bool :=
  c.isAlpha || c.isDigit || c = '+' || c = '-' || c = '.'

/-- Worker for `findScheme`: `acc` holds the scheme characters seen so far,
reversed.  Mirrors Go `getScheme`: a `:` right at the start is an error, a
`:` after valid scheme characters splits the string, and any other
non-scheme character means the whole string has no scheme. -/
def findSchemeAux (acc : Str) : Str → Except String (Option (Str × Str))
  | [] => .ok none
  | c :: rest =>
    if c = ':' then
      if acc = [] then .error "missing protocol scheme"
      else .ok (some (acc.reverse, rest))
    else if (if acc = [] then schemeHeadChar c else schemeTailChar c) then
      findSchemeAux (c :: acc) rest
    else .ok none

/-- Split a leading `scheme:` off a URL string, as Go `getScheme` does. -/
def findScheme (s : Str) : Except String (Option (Str × Str)) :=
  findSchemeAux [] s

/-- Parsed URL: scheme, host (present when the string had a `//` authority)
and path. -/
structure GoURL where
  scheme : Option Str := none
  host : Option Str := none
  path : Str := []
  deriving DecidableEq

/-- Model of `url.Parse`: reject control characters, split off the scheme,
then split `//host` from the path when an authority is present (the rest
after the scheme starts with `//`). -/
def urlParseL (s : Str) : Except String GoURL :=
  if s.any isCtlChar then .error "net/url: invalid control character in URL"
  else
    match findScheme s with
    | .error e => .error e
    | .ok none => .ok { path := s }
    | .ok (some (sc, rest)) =>
      if rest.take 2 = ['/', '/'] then
        .ok { scheme := some sc,
              host := some ((rest.drop 2).takeWhile (fun c => c ≠ '/')),
              path := (rest.drop 2).dropWhile (fun c => c ≠ '/') }
      else .ok { scheme := some sc, host := none, path := rest }

/-- Model of `strings.HasSuffix(path, "/")`: the path ends with a slash. -/
def hasSuffixSlash (p : Str) : Bool := p.getLast? == some '/'

/-- The prefix of `p` up to and including its last `/`, or `[]` when `p` has
no slash — `base[:strings.LastIndex(base, "/")+1]` in Go `resolvePath`. -/
def upToLastSlash (p : Str) : Str :=
  (p.reverse.dropWhile (fun c => c ≠ '/')).reverse

/-- Model of Go `resolvePath` (dot-segment removal omitted: this client only
resolves dot-free relative paths like `api/...`). -/
def resolvePath (base ref : Str) : Str :=
  if ref = [] then base
  else if ref.head? = some '/' then ref
  else upToLastSlash base ++ ref

/-- Model of `URL.ResolveReference` for the reference kinds this client can
produce: an absolute reference wins, a host-only reference takes the base
scheme, an absolute path replaces the base path, and a relative path is
merged onto the base path's directory. -/
def resolveReference (base ref : GoURL) : GoURL :=
  if ref.scheme.isSome then ref
  else if ref.host.isSome then { ref with scheme := base.scheme }
  else { scheme := base.scheme, host := base.host,
         path := resolvePath base.path ref.path }

/-- Embedding of `base.Parse(s)`: parse the reference string and resolve it against the
base URL. -/
def GoURL.Parse (base : GoURL) (s : Str) : Except String GoURL :=
  (urlParseL s).map (resolveReference base)

/-! ## Client construction and request building (client.go lines 15-139) -/

/-- The fixed user agent (client.go line 16). -/
def userAgent : String := "go-chartmuseum"

/-- The versioned API media type (client.go line 17). -/
def mediaType : String := "application/vnd.chartmuseum.v0+json"

/-- The client: base URL and user agent (client.go lines 22-34).  The
injected `*http.Client` is not stored here; the transport is passed
explicitly to `Client.Do`.  The `common` / `ChartService` fields are Go
allocation plumbing with no behaviour and are omitted. -/
structure Client where
  baseURL : GoURL
  userAgent : String
  deriving DecidableEq

/-- Embedding of `NewClient` (client.go lines 55-76): reject a blank base
URL, parse it, add a trailing slash to its path when missing. -/
def NewClient (baseURL : Str) : Except String Client :=
  if baseURL = [] then .error "ChartMuseum API - base URL can not be blank"
  else
    match urlParseL baseURL with
    | .error e => .error e
    | .ok u =>
      let u2 := if hasSuffixSlash u.path then u else { u with path := u.path ++ ['/'] }
      .ok { baseURL := u2, userAgent := userAgent }

/-- Model of `http.Header.Set`: replace any existing value for the key. -/
def setHeader (hs : List (String × String)) (k v : String) :
    List (String × String) :=
  (k, v) :: hs.filter (fun p => p.1 ≠ k)

/-- Header lookup (most recently `Set` value wins). -/
def getHeader (hs : List (String × String)) (k : String) : Option String :=
  (hs.find? (fun p => p.1 == k)).map Prod.snd

/-- Primitive JSON values for request bodies.  `NewRequest` takes an
`interface{}` body; within this repository the body is always `nil`, so the
body model is restricted to one-level JSON objects over these primitives,
enough to express the encoder behaviour the claims mention. -/
inductive JsonVal where
  | null
  | bool (b : Bool)
  | num (n : Int)
  | str (s : String)
  deriving DecidableEq

/-- Hex digit characters as produced by Go's JSON `\u00XX` escapes. -/
def hexDigitChar (n : Nat) : Char :=
  if n < 10 then Char.ofNat (48 + n) else Char.ofNat (87 + n)

/-- A `\u00XX` escape for a character code below 256. -/
def uEscape (n : Nat) : Str :=
  ['\\', 'u', '0', '0', hexDigitChar (n / 16), hexDigitChar (n % 16)]

/-- Model of `encoding/json` string-character escaping.  `esc` is the
encoder's escape-HTML setting: when true, `<`, `>` and `&` are written as
unicode escapes; `NewRequest` disables it
(`enc.SetEscapeHTML(false)`, client.go line 96). -/
def jsonEscapeChar (esc : Bool) (c : Char) : Str :=
  if c = '"' then ['\\', '"']
  else if c = '\\' then ['\\', '\\']
  else if esc && (c = '<' || c = '>' || c = '&') then uEscape c.toNat
  else if c = '\n' then ['\\', 'n']
  else if c = '\r' then ['\\', 'r']
  else if c = '\t' then ['\\', 't']
  else if c.toNat < 32 then uEscape c.toNat
  else [c]

/-- JSON encoding of a string literal. -/
def jsonEncodeString (esc : Bool) (s : String) : Str :=
  '"' :: s.data.foldr (fun c acc => jsonEscapeChar esc c ++ acc) ['"']

/-- JSON encoding of a primitive value. -/
def jsonEncodeVal (esc : Bool) : JsonVal → Str
  | .null => "null".data
  | .bool true => "true".data
  | .bool false => "false".data
  | .num n => (toString n).data
  | .str s => jsonEncodeString esc s

/-- JSON encoding of the fields of an object, comma-separated. -/
def jsonEncodeFields (esc : Bool) : List (String × JsonVal) → Str
  | [] => []
  | [(k, v)] => jsonEncodeString esc k ++ ':' :: jsonEncodeVal esc v
  | (k, v) :: fs =>
    jsonEncodeString esc k ++ ':' :: jsonEncodeVal esc v ++ ',' :: jsonEncodeFields esc fs

/-- JSON encoding of an object (`Char.ofNat 123` / `125` are the brace
characters). -/
def jsonEncodeObj (esc : Bool) (fields : List (String × JsonVal)) : Str :=
  Char.ofNat 123 :: jsonEncodeFields esc fields ++ [Char.ofNat 125]

/-- Request bodies: none, JSON-encoded bytes, or a raw byte stream (the
upload file). -/
inductive Body where
  | empty
  | jsonBytes (s : Str)
  | stream (bytes : List UInt8)
  deriving DecidableEq

/-- The built `*http.Request`: method, resolved URL, headers, declared
content length and body. -/
structure GoRequest where
  method : String
  url : GoURL
  headers : List (String × String) := []
  contentLength : Option Nat := none
  body : Body := .empty
  deriving DecidableEq

/-- Embedding of `Client.NewRequest` (client.go lines 83-116): require a
trailing slash on the base path, resolve the relative URL, JSON-encode the
body with HTML escaping disabled (the Go encoder appends a newline), set
`Content-Type: application/json` when a body is present, always set the
`Accept` header, and set `User-Agent` when the client's user agent is
non-empty.  (The Go error message interpolates the base URL with `%q`; the
fixed message prefix stands for it here.) -/
def Client.NewRequest (c : Client) (method : String) (urlStr : String)
    (body : Option (List (String × JsonVal))) : Except String GoRequest :=
  if !(hasSuffixSlash c.baseURL.path) then
    .error "BaseURL must have a trailing slash"
  else
    match c.baseURL.Parse urlStr.data with
    | .error e => .error e
    | .ok u =>
      let reqBody : Body :=
        match body with
        | none => .empty
        | some j => .jsonBytes (jsonEncodeObj false j ++ ['\n'])
      let hs1 : List (String × String) :=
        match body with
        | none => []
        | some _ => setHeader [] "Content-Type" "application/json"
      let hs2 := setHeader hs1 "Accept" mediaType
      let hs3 := if c.userAgent ≠ "" then setHeader hs2 "User-Agent" c.userAgent else hs2
      .ok { method := method, url := u, headers := hs3, body := reqBody }

/-- Embedding of `Client.NewUploadRequest` (client.go lines 121-139): always
a `POST`, with the caller-supplied stream, size and content type, and the
user agent set unconditionally. -/
def Client.NewUploadRequest (c : Client) (urlStr : String)
    (stream : List UInt8) (size : Nat) (mt : String) : Except String GoRequest :=
  if !(hasSuffixSlash c.baseURL.path) then
    .error "base URL must have a trailing slash"
  else
    match c.baseURL.Parse urlStr.data with
    | .error e => .error e
    | .ok u =>
      let hs1 := setHeader [] "Content-Type" mt
      let hs2 := setHeader hs1 "User-Agent" c.userAgent
      .ok { method := "POST", url := u, headers := hs2,
            contentLength := some size, body := .stream stream }

/-! ## Executing a request (client.go lines 145-161) -/

/-- The cancellable context threaded through each call: whether it is
already done (cancelled or timed out) and, when done, the text of
`ctx.Err()`. -/
structure GoContext where
  done : Bool
  ctxErr : String
  deriving DecidableEq

/-- The underlying HTTP executor (`c.httpClient.Do`): either a transport
error or a raw HTTP response. -/
abbrev Transport := GoRequest → Except String GoHTTPResponse

/-- Embedding of `Client.Do` (client.go lines 145-161): on transport failure
prefer `ctx.Err()` when the context is done, otherwise surface the raw
transport error; on transport success parse the response. -/
def Client.Do (ctx : GoContext) (req : GoRequest) (tr : Transport) :
    Option Response × Option String :=
  match tr req with
  | .error e => if ctx.done then (none, some ctx.ctxErr) else (none, some e)
  | .ok resp =>
    let pr := parseResponse resp
    (some pr.1, pr.2)

/-! ## Chart operations (charts.go) -/

/-- Embedding of `ChartInfo` (charts.go lines 14-23): all four fields are `*string` in
Go; `none` models a nil pointer, `some s` a pointer to `s`. -/
structure ChartInfo where
  name : Option String := none
  version : Option String := none
  org : Option String := none
  repo : Option String := none
  deriving DecidableEq

/-- Outcome of a Go computation that may dereference a nil pointer:
either it returns a value or it panics on a nil dereference. -/
inductive GoVal (α : Type) where
  | ret (a : α)
  | nilDeref
  deriving DecidableEq

/-- Whether the computation panicked on a nil dereference. -/
def GoVal.panics {α : Type} : GoVal α → Bool
  | .ret _ => false
  | .nilDeref => true

/-- Embedding of `ChartInfo.String` (charts.go lines 26-35), with every `*`
dereference made explicit: `fmt.Sprintf("%s-%s", ...)` and friends become
string concatenation. -/
def ChartInfo.String (c : ChartInfo) : GoVal String :=
  match c.name with
  | none => .nilDeref
  | some name =>
    match c.version with
    | none => .nilDeref
    | some version =>
      let s := name ++ "-" ++ version
      match c.org with
      | none => .nilDeref
      | some org =>
        if org ≠ "" then
          match c.repo with
          | none => .nilDeref
          | some repo => .ret (org ++ "/" ++ repo ++ "/" ++ s)
        else
          match c.repo with
          | none => .nilDeref
          | some repo => if repo ≠ "" then .ret (repo ++ "/" ++ s) else .ret s

/-- The path-selection prefix of `UploadChart` (charts.go lines 43-51):
start from `api/charts`, use the org/repo scope when set, and fail with a
validation error when org is set but repo is empty.  Dereferences of
`c.Org` / `c.Repo` are explicit; both branches of the `if` dereference
`c.Repo`. -/
def uploadPath (c : ChartInfo) : GoVal (Except String String) :=
  match c.org with
  | none => .nilDeref
  | some org =>
    if org ≠ "" then
      match c.repo with
      | none => .nilDeref
      | some repo =>
        if repo = "" then .ret (.error "Repo required if Org is provided")
        else .ret (.ok ("api/" ++ org ++ "/" ++ repo ++ "/charts"))
    else
      match c.repo with
      | none => .nilDeref
      | some repo =>
        if repo ≠ "" then .ret (.ok ("api/" ++ repo ++ "/charts"))
        else .ret (.ok "api/charts")

/-- The path-selection prefix of `DeleteChart` (charts.go lines 57-65):
like `uploadPath` but the name and version are dereferenced first and
always appended. -/
def deletePath (c : ChartInfo) : GoVal (Except String String) :=
  match c.name with
  | none => .nilDeref
  | some name =>
    match c.version with
    | none => .nilDeref
    | some version =>
      match c.org with
      | none => .nilDeref
      | some org =>
        if org ≠ "" then
          match c.repo with
          | none => .nilDeref
          | some repo =>
            if repo = "" then .ret (.error "Repo required if Org is provided")
            else .ret (.ok ("api/" ++ org ++ "/" ++ repo ++ "/charts/" ++ name ++ "/" ++ version))
        else
          match c.repo with
          | none => .nilDeref
          | some repo =>
            if repo ≠ "" then .ret (.ok ("api/" ++ repo ++ "/charts/" ++ name ++ "/" ++ version))
            else .ret (.ok ("api/charts/" ++ name ++ "/" ++ version))

/-! ## File model (standard library collaborator `os.File`) -/

/-- An open file handle: its byte content, current read position, whether
it is a directory, and whether `Stat` fails (with that error's text). -/
structure GoFile where
  content : List UInt8
  pos : Nat
  isDir : Bool
  statErr : Option String := none
  deriving DecidableEq

/-- The part of `os.FileInfo` the upload helper uses. -/
structure FileStat where
  isDir : Bool
  size : Nat
  deriving DecidableEq

/-- Model of `file.Stat()`: the configured error, or the directory flag and size. -/
def GoFile.stat (f : GoFile) : Except String FileStat :=
  match f.statErr with
  | some e => .error e
  | none => .ok ⟨f.isDir, f.content.length⟩

/-- Model of `file.Read(buffer)` for a 512-byte zeroed buffer: at end of file it
returns the untouched buffer and `io.EOF` (text `EOF`) without moving the
position; otherwise it fills the buffer with up to 512 bytes from the
current position (the rest stays zero) and advances the position. -/
def readFull512 (f : GoFile) : (List UInt8 × Option String) × GoFile :=
  if f.content.length ≤ f.pos then
    ((List.replicate 512 0, some "EOF"), f)
  else
    let chunk := (f.content.drop f.pos).take 512
    ((chunk ++ List.replicate (512 - chunk.length) 0, none),
     { f with pos := f.pos + chunk.length })

/-- Model of `http.DetectContentType` on the full 512-byte buffer.  The
sniffing table is abbreviated to the gzip signature (the packaged-chart
case) with the documented `application/octet-stream` fallback; no claim
depends on which type is detected on other inputs. -/
def DetectContentType (buffer : List UInt8) : String :=
  if buffer.take 2 = [31, 139] then "application/x-gzip"
  else "application/octet-stream"

/-- Embedding of `detectContentType` (charts.go lines 92-105): read at most
the first 512 bytes; on a read error return `application/octet-stream` with
that error and without seeking; otherwise seek back to offset 0 and return
the sniffed type. -/
def detectContentType (f : GoFile) : (String × Option String) × GoFile :=
  let r := readFull512 f
  match r.1.2 with
  | some e => (("application/octet-stream", some e), r.2)
  | none => ((DetectContentType r.1.1, none), { r.2 with pos := 0 })

/-! ## Upload / delete helpers and operations (charts.go lines 42-118) -/

/-- The stage of `uploadChartHelper` after content-type sniffing (charts.go
lines 80-88): build the upload request with the file's remaining bytes as
the stream, execute it, and wrap errors with the upload prefix
(`errors.Wrap(err, msg)` renders as `msg ++ ": " ++ err`). -/
def uploadAfterSniff (u : String) (f : GoFile) (size : Nat) (mt : String)
    (cl : Client) (ctx : GoContext) (tr : Transport) :
    Option Response × Option String :=
  match cl.NewUploadRequest u (f.content.drop f.pos) size mt with
  | .error e => (none, some ("Failed creating upload request: " ++ e))
  | .ok req =>
    match Client.Do ctx req tr with
    | (resp, some e) => (resp, some ("Failed to do upload request: " ++ e))
    | (resp, none) => (resp, none)

/-- Embedding of `uploadChartHelper` (charts.go lines 70-89): stat the file,
reject directories, sniff the content type discarding the sniff error, then
build and execute the upload request. -/
def uploadChartHelper (u : String) (file : GoFile) (cl : Client)
    (ctx : GoContext) (tr : Transport) : Option Response × Option String :=
  match file.stat with
  | .error e => (none, some ("Unable to access file: " ++ e))
  | .ok st =>
    if st.isDir then (none, some "Chart to upload can\x27t be a directory")
    else
      let r := detectContentType file
      uploadAfterSniff u r.2 st.size r.1.1 cl ctx tr

/-- Embedding of `deleteChartHelper` (charts.go lines 108-118): build the
`DELETE` request with no body, execute it, and wrap errors with the delete
prefix. -/
def deleteChartHelper (u : String) (cl : Client) (ctx : GoContext)
    (tr : Transport) : Option Response × Option String :=
  match cl.NewRequest "DELETE" u none with
  | .error e => (none, some ("Failed creating delete request: " ++ e))
  | .ok req =>
    match Client.Do ctx req tr with
    | (resp, some e) => (resp, some ("Failed to do delete request: " ++ e))
    | (resp, none) => (resp, none)

/-- Embedding of `UploadChart` (charts.go lines 42-53): path selection, then
the upload helper.  The `ChartService` receiver is its client. -/
def UploadChart (c : ChartInfo) (file : GoFile) (cl : Client)
    (ctx : GoContext) (tr : Transport) :
    GoVal (Option Response × Option String) :=
  match uploadPath c with
  | .nilDeref => .nilDeref
  | .ret (.error e) => .ret (none, some e)
  | .ret (.ok u) => .ret (uploadChartHelper u file cl ctx tr)

/-- Embedding of `DeleteChart` (charts.go lines 56-67): path selection, then
the delete helper. -/
def DeleteChart (c : ChartInfo) (cl : Client) (ctx : GoContext)
    (tr : Transport) : GoVal (Option Response × Option String) :=
  match deletePath c with
  | .nilDeref => .nilDeref
  | .ret (.error e) => .ret (none, some e)
  | .ret (.ok u) => .ret (deleteChartHelper u cl ctx tr)

/-! ## Helper lemmas -/

/-- On strings with no `%` character the zero-argument formatter copies its
input unchanged. -/
theorem fmtRun_normal_of_no_percent (l : Str) (h : ∀ c ∈ l, c ≠ '%') :
    fmtRun .normal l = l := by
  induction l with
  | nil => rfl
  | cons c rest ih =>
    have hc : c ≠ '%' := h c (List.mem_cons_self _ _)
    simp only [fmtRun, if_neg hc]
    exact congrArg (c :: ·) (ih fun d hd => h d (List.mem_cons_of_mem _ hd))

/-- The formatter `fmtNoArgs` is the identity on `%`-free strings. -/
theorem fmtNoArgs_of_not_hasPercent (s : String) (h : hasPercent s = false) :
    fmtNoArgs s = s := by
  have h' : ∀ c ∈ s.data, c ≠ '%' := by
    intro c hc
    have := (List.any_eq_false).1 h c hc
    simpa using this
  show String.mk (fmtRun .normal s.data) = s
  rw [fmtRun_normal_of_no_percent s.data h']

/-! ## Claim C1 -/

/-- C1 (counterexample): the claim says the non-2xx error's text is the
envelope's error field, but `parseResponse` builds the error with
`fmt.Errorf(response.Error)`, which treats the field as a format string:
for the decoded error field `"%d"` the returned error text is
`"%!d(MISSING)"`, not `"%d"`. -/
theorem c1_counterexample :
    (parseResponse ⟨500, false, { error := "%d" }⟩).1.envelope.error = "%d" ∧
    (parseResponse ⟨500, false, { error := "%d" }⟩).2 = some "%!d(MISSING)" ∧
    (parseResponse ⟨500, false, { error := "%d" }⟩).2 ≠
      some (parseResponse ⟨500, false, { error := "%d" }⟩).1.envelope.error := by
  refine ⟨by decide, by decide, by decide⟩

/-- C1 (amended): `parseResponse` (and `Client.Do` on transport success)
returns the decoded envelope; a status in 200–299 comes with no error, and
any other status comes with a non-nil error whose text is the envelope's
error field rendered by Go's formatter with no arguments — equal to the
field itself whenever the field contains no `%` character (and possibly
empty). -/
theorem c1_parseResponse_classification (r : GoHTTPResponse) :
    (parseResponse r).1 = ⟨r, if r.bodyReadErr then {} else r.bodyDecoded⟩ ∧
    (∀ ctx req tr, tr req = .ok r →
      Client.Do ctx req tr = (some (parseResponse r).1, (parseResponse r).2)) ∧
    (200 ≤ r.statusCode ∧ r.statusCode ≤ 299 → (parseResponse r).2 = none) ∧
    (¬(200 ≤ r.statusCode ∧ r.statusCode ≤ 299) →
      (parseResponse r).2 = some (fmtNoArgs (parseResponse r).1.envelope.error) ∧
      (hasPercent (parseResponse r).1.envelope.error = false →
        (parseResponse r).2 = some (parseResponse r).1.envelope.error)) := by
  refine ⟨?_, ?_, ?_, ?_⟩
  · unfold parseResponse
    split <;> split <;> rfl
  · intro ctx req tr htr
    unfold Client.Do
    rw [htr]
  · intro h
    unfold parseResponse
    simp [h]
  · intro h
    constructor
    · unfold parseResponse
      simp [h]
    · intro hp
      have : fmtNoArgs (parseResponse r).1.envelope.error =
          (parseResponse r).1.envelope.error := fmtNoArgs_of_not_hasPercent _ hp
      unfold parseResponse at this ⊢
      simp [h] at this ⊢
      exact this

/-- C1 (witness): a 204 response yields no error; a 500 response with
decoded error field `boom` yields exactly the error `boom`. -/
theorem c1_witness :
    (parseResponse ⟨204, false, {}⟩).2 = none ∧
    (parseResponse ⟨500, false, { error := "boom" }⟩).2 = some "boom" := by
  refine ⟨(c1_parseResponse_classification ⟨204, false, {}⟩).2.2.1 (by decide), ?_⟩
  have h := ((c1_parseResponse_classification ⟨500, false, { error := "boom" }⟩).2.2.2
    (by decide)).2 (by decide)
  exact h.trans (by decide)

/-! ## Claim C2 -/

/-- C2: for a `ChartInfo` with org set (non-empty) and repo empty, both
`UploadChart` and `DeleteChart` return the validation error
`Repo required if Org is provided` with a nil response, for every name,
version, file, client, context and transport — in particular the result
does not depend on the transport or client, so no request is built and no
network call is made. -/
theorem c2_org_without_repo (name version org : String) (h : org ≠ "")
    (file : GoFile) (cl : Client) (ctx : GoContext) (tr : Transport) :
    UploadChart ⟨some name, some version, some org, some ""⟩ file cl ctx tr =
      .ret (none, some "Repo required if Org is provided") ∧
    DeleteChart ⟨some name, some version, some org, some ""⟩ cl ctx tr =
      .ret (none, some "Repo required if Org is provided") := by
  unfold UploadChart DeleteChart uploadPath deletePath
  simp [h]

/-- C2 (witness): the validation failure at a concrete chart, file, client
and transport. -/
theorem c2_witness :
    UploadChart ⟨some "demo", some "1.0.0", some "acme", some ""⟩
        ⟨[], 0, false, none⟩ ⟨{ path := ['/'] }, "go-chartmuseum"⟩ ⟨false, ""⟩
        (fun _ => .error "down") =
      .ret (none, some "Repo required if Org is provided") ∧
    DeleteChart ⟨some "demo", some "1.0.0", some "acme", some ""⟩
        ⟨{ path := ['/'] }, "go-chartmuseum"⟩ ⟨false, ""⟩
        (fun _ => .error "down") =
      .ret (none, some "Repo required if Org is provided") :=
  c2_org_without_repo "demo" "1.0.0" "acme" (by decide) _ _ _ _

/-! ## Claim C3 -/

/-- C3: for every valid `ChartInfo` (all fields non-nil, org only set
together with repo), the relative request path is `api/{org}/{repo}/charts`
when org is set, `api/{repo}/charts` when only repo is set, and `api/charts`
otherwise for upload; for delete the same three shapes with
`/{name}/{version}` appended. -/
theorem c3_request_paths (name version org repo : String) :
    (org ≠ "" → repo ≠ "" →
      uploadPath ⟨some name, some version, some org, some repo⟩ =
        .ret (.ok ("api/" ++ org ++ "/" ++ repo ++ "/charts")) ∧
      deletePath ⟨some name, some version, some org, some repo⟩ =
        .ret (.ok ("api/" ++ org ++ "/" ++ repo ++ "/charts/" ++ name ++ "/" ++ version))) ∧
    (org = "" → repo ≠ "" →
      uploadPath ⟨some name, some version, some org, some repo⟩ =
        .ret (.ok ("api/" ++ repo ++ "/charts")) ∧
      deletePath ⟨some name, some version, some org, some repo⟩ =
        .ret (.ok ("api/" ++ repo ++ "/charts/" ++ name ++ "/" ++ version))) ∧
    (org = "" → repo = "" →
      uploadPath ⟨some name, some version, some org, some repo⟩ =
        .ret (.ok "api/charts") ∧
      deletePath ⟨some name, some version, some org, some repo⟩ =
        .ret (.ok ("api/charts/" ++ name ++ "/" ++ version))) := by
  refine ⟨fun h1 h2 => ?_, fun h1 h2 => ?_, fun h1 h2 => ?_⟩ <;>
    unfold uploadPath deletePath <;> simp [h1, h2]

/-- C3 (witness): the three path shapes at concrete names. -/
theorem c3_witness :
    uploadPath ⟨some "demo", some "1.0.0", some "acme", some "stable"⟩ =
      .ret (.ok "api/acme/stable/charts") ∧
    deletePath ⟨some "demo", some "1.0.0", some "acme", some "stable"⟩ =
      .ret (.ok "api/acme/stable/charts/demo/1.0.0") ∧
    uploadPath ⟨some "demo", some "1.0.0", some "", some "stable"⟩ =
      .ret (.ok "api/stable/charts") ∧
    deletePath ⟨some "demo", some "1.0.0", some "", some ""⟩ =
      .ret (.ok "api/charts/demo/1.0.0") := by
  have h1 := (c3_request_paths "demo" "1.0.0" "acme" "stable").1 (by decide) (by decide)
  have h2 := (c3_request_paths "demo" "1.0.0" "" "stable").2.1 rfl (by decide)
  have h3 := (c3_request_paths "demo" "1.0.0" "" "").2.2 rfl rfl
  exact ⟨h1.1.trans (by decide), h1.2.trans (by decide),
    h2.1.trans (by decide), h3.2.trans (by decide)⟩

/-- A string starting with one character never equals a string starting
with a different character, whatever is appended to the first. -/
theorem append_ne_of_head_ne (p q e : String) (c₁ c₂ : Char)
    (h₁ : p.data.head? = some c₁) (h₂ : q.data.head? = some c₂)
    (hne : c₁ ≠ c₂) : p ++ e ≠ q := by
  intro hc
  have hdata : p.data ++ e.data = q.data := by
    have := congrArg String.data hc
    rwa [String.data_append] at this
  have hh : (p.data ++ e.data).head? = some c₂ := by rw [hdata]; exact h₂
  rw [List.head?_append, h₁] at hh
  exact hne (by simpa using hh)

/-! ## Claim C4 -/

/-- C4 (counterexample): the claim says the sniff leaves the read position
at offset 0 for every file, but on a handle already positioned at end of
file the sniff read fails and `detectContentType` returns without seeking:
for a 2-byte file at position 2 the position stays 2. -/
theorem c4_counterexample :
    (detectContentType ⟨[1, 2], 2, false, none⟩).2.pos ≠ 0 := by decide

/-- C4 (amended): the sniff reads at most 512 bytes, and whenever the sniff
read succeeds `detectContentType` seeks back so the position ends at 0, for
every file and detected type; when the read fails the file is left
unchanged.  In particular a handle starting at offset 0 always ends at
offset 0, so the stream handed to the upload request delivers the full
content from the start. -/
theorem c4_sniff_position (f : GoFile) :
    (readFull512 f).2.pos ≤ f.pos + 512 ∧
    ((detectContentType f).1.2 = none → (detectContentType f).2.pos = 0) ∧
    (∀ e, (detectContentType f).1.2 = some e → (detectContentType f).2 = f) ∧
    (f.pos = 0 → (detectContentType f).2.pos = 0) := by
  by_cases h : f.content.length ≤ f.pos
  · have hr : readFull512 f = ((List.replicate 512 0, some "EOF"), f) := by
      unfold readFull512; rw [if_pos h]
    have hd : detectContentType f = (("application/octet-stream", some "EOF"), f) := by
      unfold detectContentType; rw [hr]
    refine ⟨?_, ?_, ?_, ?_⟩
    · rw [hr]; exact Nat.le_add_right _ _
    · rw [hd]; intro hnone; exact absurd hnone (by simp)
    · intro e _; rw [hd]
    · intro h0; rw [hd]; exact h0
  · have hr : readFull512 f =
        (((f.content.drop f.pos).take 512 ++
            List.replicate (512 - ((f.content.drop f.pos).take 512).length) 0, none),
         { f with pos := f.pos + ((f.content.drop f.pos).take 512).length }) := by
      unfold readFull512; rw [if_neg h]
    have hd : detectContentType f =
        ((DetectContentType ((f.content.drop f.pos).take 512 ++
            List.replicate (512 - ((f.content.drop f.pos).take 512).length) 0), none),
         { f with pos := 0 }) := by
      unfold detectContentType; rw [hr]
    have hlen : ((f.content.drop f.pos).take 512).length ≤ 512 := by
      simp
    refine ⟨?_, ?_, ?_, ?_⟩
    · rw [hr]; exact Nat.add_le_add_left hlen f.pos
    · intro _; rw [hd]
    · intro e he; rw [hd] at he; exact absurd he (by simp)
    · intro _; rw [hd]

/-- C4 (witness): a 1-byte file at position 0 ends at position 0; an empty
file at position 5 is left unchanged by the failing sniff. -/
theorem c4_witness :
    (detectContentType ⟨[7], 0, false, none⟩).2.pos = 0 ∧
    (detectContentType ⟨[], 5, false, none⟩).2 = ⟨[], 5, false, none⟩ := by
  refine ⟨(c4_sniff_position ⟨[7], 0, false, none⟩).2.2.2 rfl, ?_⟩
  exact (c4_sniff_position ⟨[], 5, false, none⟩).2.2.1 "EOF" (by decide)

/-! ## Claim C8 -/

/-- C8: when the supplied file handle is a directory (and `Stat` succeeds,
as it does on directories), the upload helper fails with the directory
validation error for every path, client, context and transport — no request
is built and no file bytes are read; when the handle is not a directory
this validation never fires (no other outcome produces that error). -/
theorem c8_directory_validation (u : String) (f : GoFile) (cl : Client)
    (ctx : GoContext) (tr : Transport) :
    (f.isDir = true → f.statErr = none →
      uploadChartHelper u f cl ctx tr =
        (none, some "Chart to upload can\x27t be a directory")) ∧
    (f.isDir = false →
      uploadChartHelper u f cl ctx tr ≠
        (none, some "Chart to upload can\x27t be a directory")) := by
  constructor
  · intro hdir hstat
    unfold uploadChartHelper GoFile.stat
    rw [hstat]
    simp [hdir]
  · intro hdir
    unfold uploadChartHelper GoFile.stat
    cases hs : f.statErr with
    | some e =>
      intro hcontra
      have h2 : "Unable to access file: " ++ e =
          "Chart to upload can\x27t be a directory" := by
        have := congrArg Prod.snd hcontra
        simpa using this
      exact append_ne_of_head_ne _ _ e 'U' 'C' (by decide) (by decide) (by decide) h2
    | none =>
      simp only [hdir]
      unfold uploadAfterSniff
      cases hreq : Client.NewUploadRequest cl u
          ((detectContentType f).2.content.drop (detectContentType f).2.pos)
          f.content.length (detectContentType f).1.1 with
      | error e =>
        simp only [Bool.false_eq_true, if_false, hreq]
        intro hcontra
        have h2 : "Failed creating upload request: " ++ e =
            "Chart to upload can\x27t be a directory" := by
          have := congrArg Prod.snd hcontra
          simpa using this
        exact append_ne_of_head_ne _ _ e 'F' 'C' (by decide) (by decide) (by decide) h2
      | ok req =>
        simp only [Bool.false_eq_true, if_false, hreq]
        cases hdo : Client.Do ctx req tr with
        | mk resp eo =>
          cases eo with
          | none => simp
          | some e =>
            simp only []
            intro hcontra
            have h2 : "Failed to do upload request: " ++ e =
                "Chart to upload can\x27t be a directory" := by
              have := congrArg Prod.snd hcontra
              simpa using this
            exact append_ne_of_head_ne _ _ e 'F' 'C' (by decide) (by decide) (by decide) h2

/-- C8 (witness): a directory handle fails with the validation error; a
plain empty file does not produce that error. -/
theorem c8_witness :
    uploadChartHelper "api/charts" ⟨[], 0, true, none⟩
        ⟨{ path := ['/'] }, "go-chartmuseum"⟩ ⟨false, ""⟩ (fun _ => .error "down") =
      (none, some "Chart to upload can\x27t be a directory") ∧
    uploadChartHelper "api/charts" ⟨[], 0, false, none⟩
        ⟨{ path := ['/'] }, "go-chartmuseum"⟩ ⟨false, ""⟩ (fun _ => .error "down") ≠
      (none, some "Chart to upload can\x27t be a directory") :=
  ⟨(c8_directory_validation "api/charts" ⟨[], 0, true, none⟩ _ _ _).1 rfl rfl,
   (c8_directory_validation "api/charts" ⟨[], 0, false, none⟩ _ _ _).2 rfl⟩

/-! ## Claim C9 -/

/-- C9: the public chart operations dereference the pointer-typed
`ChartInfo` fields unconditionally — `UploadChart` panics exactly when
`Org` or `Repo` is nil, and `DeleteChart` and `ChartInfo.String` panic
exactly when any of `Name`, `Version`, `Org`, `Repo` is nil; with all
fields non-nil (`optional` = pointer to the empty string) no operation
panics. -/
theorem c9_nil_pointer_dereference (c : ChartInfo) (file : GoFile)
    (cl : Client) (ctx : GoContext) (tr : Transport) :
    (UploadChart c file cl ctx tr).panics = (c.org.isNone || c.repo.isNone) ∧
    (DeleteChart c cl ctx tr).panics =
      (c.name.isNone || c.version.isNone || c.org.isNone || c.repo.isNone) ∧
    (ChartInfo.String c).panics =
      (c.name.isNone || c.version.isNone || c.org.isNone || c.repo.isNone) := by
  obtain ⟨n, v, o, r⟩ := c
  cases n <;> cases v <;> cases o <;> cases r <;>
    refine ⟨?_, ?_, ?_⟩ <;>
    simp only [UploadChart, DeleteChart, ChartInfo.String, uploadPath, deletePath] <;>
    first
      | rfl
      | (split_ifs <;> simp [GoVal.panics])

/-! ## Claim C10 -/

/-- C10: when the sniff read fails (as on an empty file), the upload does
not fail because of it: `detectContentType` returns
`application/octet-stream` with the `EOF` error and without seeking, and
`uploadChartHelper` discards the error and proceeds to build and execute
the upload request with content type `application/octet-stream`. -/
theorem c10_sniff_error_discarded (u : String) (f : GoFile) (cl : Client)
    (ctx : GoContext) (tr : Transport) (hstat : f.statErr = none)
    (hdir : f.isDir = false) (hpos : f.content.length ≤ f.pos) :
    detectContentType f = (("application/octet-stream", some "EOF"), f) ∧
    uploadChartHelper u f cl ctx tr =
      uploadAfterSniff u f f.content.length "application/octet-stream" cl ctx tr := by
  have hr : readFull512 f = ((List.replicate 512 0, some "EOF"), f) := by
    unfold readFull512; rw [if_pos hpos]
  have hd : detectContentType f = (("application/octet-stream", some "EOF"), f) := by
    unfold detectContentType; rw [hr]
  refine ⟨hd, ?_⟩
  unfold uploadChartHelper GoFile.stat
  rw [hstat]
  simp [hdir, hd]

/-- C10 (witness): the empty file at a concrete upload invocation. -/
theorem c10_witness :
    detectContentType ⟨[], 0, false, none⟩ =
      (("application/octet-stream", some "EOF"), ⟨[], 0, false, none⟩) ∧
    uploadChartHelper "api/charts" ⟨[], 0, false, none⟩
        ⟨{ path := ['/'] }, "go-chartmuseum"⟩ ⟨false, ""⟩ (fun _ => .error "down") =
      uploadAfterSniff "api/charts" ⟨[], 0, false, none⟩ 0 "application/octet-stream"
        ⟨{ path := ['/'] }, "go-chartmuseum"⟩ ⟨false, ""⟩ (fun _ => .error "down") :=
  c10_sniff_error_discarded "api/charts" ⟨[], 0, false, none⟩
    ⟨{ path := ['/'] }, "go-chartmuseum"⟩ ⟨false, ""⟩ (fun _ => .error "down")
    rfl rfl (by decide)

/-! ## Claim C6 -/

/-- C6: when the transport fails and the context is already done, `Do`
returns the context's cancellation error instead of the raw transport
error; when the transport fails and the context is not done, `Do` returns
the raw transport error. -/
theorem c6_context_error_preference (ctx : GoContext) (req : GoRequest)
    (tr : Transport) (e : String) (h : tr req = .error e) :
    (ctx.done = true → Client.Do ctx req tr = (none, some ctx.ctxErr)) ∧
    (ctx.done = false → Client.Do ctx req tr = (none, some e)) := by
  unfold Client.Do
  rw [h]
  constructor
  · intro hd; simp [hd]
  · intro hd; simp [hd]

/-- C6 (witness): a failing transport under a cancelled and an active
context. -/
theorem c6_witness :
    Client.Do ⟨true, "context canceled"⟩ { method := "GET", url := {} }
        (fun _ => .error "connection refused") = (none, some "context canceled") ∧
    Client.Do ⟨false, ""⟩ { method := "GET", url := {} }
        (fun _ => .error "connection refused") = (none, some "connection refused") :=
  ⟨(c6_context_error_preference ⟨true, "context canceled"⟩
      { method := "GET", url := {} } _ "connection refused" rfl).1 rfl,
   (c6_context_error_preference ⟨false, ""⟩
      { method := "GET", url := {} } _ "connection refused" rfl).2 rfl⟩

/-! ## Claim C7 -/

/-- C7: every request `NewRequest` builds successfully (for a client with
the library's non-empty user agent) carries `Accept` equal to the versioned
media type and a `User-Agent` header; `Content-Type` is
`application/json` exactly when a body is supplied; and a supplied body is
JSON-encoded with HTML escaping disabled (plus the encoder's trailing
newline). -/
theorem c7_request_headers (c : Client) (method urlStr : String)
    (body : Option (List (String × JsonVal))) (req : GoRequest)
    (hUA : c.userAgent ≠ "")
    (h : c.NewRequest method urlStr body = .ok req) :
    getHeader req.headers "Accept" = some mediaType ∧
    getHeader req.headers "User-Agent" = some c.userAgent ∧
    (∀ j, body = some j →
      getHeader req.headers "Content-Type" = some "application/json" ∧
      req.body = .jsonBytes (jsonEncodeObj false j ++ ['\n'])) ∧
    (body = none → getHeader req.headers "Content-Type" = none) := by
  unfold Client.NewRequest at h
  cases hb : hasSuffixSlash c.baseURL.path with
  | false => rw [hb] at h; simp at h
  | true =>
    rw [hb] at h
    simp only [Bool.not_true, Bool.false_eq_true, if_false] at h
    cases hp : GoURL.Parse c.baseURL urlStr.data with
    | error e => rw [hp] at h; exact absurd h (by simp)
    | ok u =>
      rw [hp] at h
      simp only [Except.ok.injEq] at h
      subst h
      cases body with
      | none =>
        refine ⟨?_, ?_, ?_, ?_⟩
        · rw [if_pos hUA]; rfl
        · rw [if_pos hUA]; rfl
        · intro j hj; exact absurd hj (by simp)
        · intro _; rw [if_pos hUA]; rfl
      | some j =>
        refine ⟨?_, ?_, ?_, ?_⟩
        · rw [if_pos hUA]; rfl
        · rw [if_pos hUA]; rfl
        · intro j' hj
          obtain rfl : j = j' := by injection hj
          exact ⟨by rw [if_pos hUA]; rfl, rfl⟩
        · intro hnone; exact absurd hnone (by simp)

/-- Concrete client used by the C7 witness. -/
def c7client : Client :=
  { baseURL := { scheme := some "http".data, host := some "h".data, path := ['/'] },
    userAgent := "go-chartmuseum" }

/-- The bodyless request built in the C7 witness. -/
def c7req : GoRequest :=
  { method := "DELETE",
    url := { scheme := some "http".data, host := some "h".data, path := "/api/charts".data },
    headers := [("User-Agent", "go-chartmuseum"), ("Accept", mediaType)],
    contentLength := none,
    body := .empty }

/-- The JSON-bodied request built in the C7 witness. -/
def c7reqB : GoRequest :=
  { method := "POST",
    url := { scheme := some "http".data, host := some "h".data, path := "/api/charts".data },
    headers := [("User-Agent", "go-chartmuseum"), ("Accept", mediaType),
                ("Content-Type", "application/json")],
    contentLength := none,
    body := .jsonBytes (jsonEncodeObj false [("name", JsonVal.str "a<b")] ++ ['\n']) }

/-- C7 (witness): concrete requests with and without a body. -/
theorem c7_witness :
    c7client.NewRequest "DELETE" "api/charts" none = .ok c7req ∧
    c7client.NewRequest "POST" "api/charts" (some [("name", JsonVal.str "a<b")]) =
      .ok c7reqB ∧
    getHeader c7req.headers "Accept" = some mediaType ∧
    getHeader c7req.headers "User-Agent" = some "go-chartmuseum" ∧
    getHeader c7req.headers "Content-Type" = none ∧
    getHeader c7reqB.headers "Content-Type" = some "application/json" ∧
    c7reqB.body = .jsonBytes (jsonEncodeObj false [("name", JsonVal.str "a<b")] ++ ['\n']) := by
  have h1 : c7client.NewRequest "DELETE" "api/charts" none = .ok c7req := by decide
  have h2 : c7client.NewRequest "POST" "api/charts"
      (some [("name", JsonVal.str "a<b")]) = .ok c7reqB := by decide
  have k1 := c7_request_headers c7client "DELETE" "api/charts" none c7req (by decide) h1
  have k2 := c7_request_headers c7client "POST" "api/charts"
    (some [("name", JsonVal.str "a<b")]) c7reqB (by decide) h2
  exact ⟨h1, h2, k1.1, k1.2.1, k1.2.2.2 rfl, (k2.2.2.1 _ rfl).1, (k2.2.2.1 _ rfl).2⟩

/-! ## Claim C5: URL parser lemmas -/

/-- A trailing slash is never a scheme character and never a colon, so
appending one to the input only lengthens the remainder returned by
`findSchemeAux`. -/
theorem findSchemeAux_append_slash (b : Str) : ∀ acc : Str,
    findSchemeAux acc (b ++ ['/']) =
      match findSchemeAux acc b with
      | .error e => .error e
      | .ok none => .ok none
      | .ok (some (sc, rest)) => .ok (some (sc, rest ++ ['/'])) := by
  induction b with
  | nil =>
    intro acc
    show findSchemeAux acc ['/'] = _
    simp only [findSchemeAux]
    have h2 : (if acc = [] then schemeHeadChar '/' else schemeTailChar '/') = false := by
      split <;> decide
    rw [h2]
    simp
  | cons c l ih =>
    intro acc
    rw [List.cons_append]
    simp only [findSchemeAux]
    by_cases hc : c = ':'
    · rw [if_pos hc, if_pos hc]
      by_cases ha : acc = []
      · rw [if_pos ha, if_pos ha]
      · rw [if_neg ha, if_neg ha]
    · rw [if_neg hc, if_neg hc]
      cases hs : (if acc = [] then schemeHeadChar c else schemeTailChar c) with
      | true => simp only [if_pos rfl]; exact ih (c :: acc)
      | false => simp

/-- The remainder returned by `findSchemeAux` is a suffix of its input. -/
theorem findSchemeAux_suffix (b : Str) : ∀ acc sc rest,
    findSchemeAux acc b = .ok (some (sc, rest)) → rest <:+ b := by
  induction b with
  | nil => intro acc sc rest h; simp [findSchemeAux] at h
  | cons c l ih =>
    intro acc sc rest h
    simp only [findSchemeAux] at h
    by_cases hc : c = ':'
    · rw [if_pos hc] at h
      by_cases ha : acc = []
      · rw [if_pos ha] at h; exact absurd h (by simp)
      · rw [if_neg ha] at h
        have hr : rest = l := by
          have := (Except.ok.injEq _ _).mp h
          exact ((Prod.mk.injEq _ _ _ _).mp (Option.some.injEq _ _ |>.mp this) |>.2).symm
        rw [hr]
        exact List.suffix_cons c l
    · rw [if_neg hc] at h
      cases hs : (if acc = [] then schemeHeadChar c else schemeTailChar c) with
      | true =>
        rw [hs] at h
        simp only [if_pos rfl] at h
        exact (ih (c :: acc) sc rest h).trans (List.suffix_cons c l)
      | false => rw [hs] at h; simp at h

/-- A non-empty suffix determines the last element of the whole list. -/
theorem getLast?_of_suffix {l b : Str} (h : l <:+ b) (hne : l ≠ []) :
    b.getLast? = l.getLast? := by
  obtain ⟨t, rfl⟩ := h
  exact List.getLast?_append_of_ne_nil t hne

/-- The path produced by `urlParseL` is a suffix of the input string. -/
theorem urlParseL_path_suffix (b : Str) (u : GoURL) (h : urlParseL b = .ok u) :
    u.path <:+ b := by
  unfold urlParseL at h
  by_cases hany : b.any isCtlChar = true
  · rw [if_pos hany] at h; exact absurd h (by simp)
  · rw [if_neg hany] at h
    unfold findScheme at h
    cases hf : findSchemeAux [] b with
    | error e => rw [hf] at h; exact absurd h (by simp)
    | ok o =>
      rw [hf] at h
      cases o with
      | none =>
        have : u = { path := b } := by
          have := (Except.ok.injEq _ _).mp h
          exact this.symm
        rw [this]
      | some p =>
        obtain ⟨sc, rest⟩ := p
        dsimp only at h
        have hsuf : rest <:+ b := findSchemeAux_suffix b [] sc rest hf
        by_cases ht : rest.take 2 = ['/', '/']
        · rw [if_pos ht] at h
          have hu : u.path = (rest.drop 2).dropWhile (fun c => c ≠ '/') := by
            have := (Except.ok.injEq _ _).mp h
            rw [← this]
          rw [hu]
          exact ((List.dropWhile_suffix _).trans (List.drop_suffix 2 rest)).trans hsuf
        · rw [if_neg ht] at h
          have hu : u.path = rest := by
            have := (Except.ok.injEq _ _).mp h
            rw [← this]
          rw [hu]
          exact hsuf

/-- Appending a trailing slash to a URL string that does not already end in
one parses to the same URL with the slash appended to its path. -/
theorem urlParseL_append_slash (b : Str) (hb : hasSuffixSlash b = false) :
    urlParseL (b ++ ['/']) =
      (urlParseL b).map (fun u => { u with path := u.path ++ ['/'] }) := by
  unfold urlParseL
  have hctl : (b ++ ['/']).any isCtlChar = b.any isCtlChar := by
    rw [List.any_append]
    simp [isCtlChar]
  rw [hctl]
  by_cases hany : b.any isCtlChar = true
  · rw [if_pos hany, if_pos hany]; rfl
  · rw [if_neg hany, if_neg hany]
    unfold findScheme
    rw [findSchemeAux_append_slash b []]
    cases hf : findSchemeAux [] b with
    | error e => rfl
    | ok o =>
      cases o with
      | none => rfl
      | some p =>
        obtain ⟨sc, rest⟩ := p
        dsimp only
        have hsuf : rest <:+ b := findSchemeAux_suffix b [] sc rest hf
        rcases rest with _ | ⟨c1, rest1⟩
        · have h1 : ¬((([] : Str) ++ ['/']).take 2 = ['/', '/']) := by decide
          have h2 : ¬(([] : Str).take 2 = ['/', '/']) := by decide
          rw [if_neg h1, if_neg h2]
          rfl
        rcases rest1 with _ | ⟨c2, rest2⟩
        · have hc1 : c1 ≠ '/' := by
            intro hcc
            subst hcc
            have hlast := getLast?_of_suffix hsuf (by simp)
            unfold hasSuffixSlash at hb
            rw [hlast] at hb
            simp at hb
          have h1 : ¬(([c1] ++ ['/']).take 2 = ['/', '/']) := by
            simp [hc1]
          have h2 : ¬(([c1] : Str).take 2 = ['/', '/']) := by simp
          rw [if_neg h1, if_neg h2]
          rfl
        · by_cases hcc : (c1 :: c2 :: rest2).take 2 = ['/', '/']
          · have hcc' : ((c1 :: c2 :: rest2) ++ ['/']).take 2 = ['/', '/'] := by
              simp only [List.cons_append, List.take_succ_cons] at hcc ⊢
              exact hcc
            rw [if_pos hcc', if_pos hcc]
            show (Except.ok
                ({ scheme := some sc,
                   host := some ((rest2 ++ ['/']).takeWhile (fun c => c ≠ '/')),
                   path := (rest2 ++ ['/']).dropWhile (fun c => c ≠ '/') } : GoURL) :
                  Except String GoURL) =
              Except.ok
                ({ scheme := some sc,
                   host := some (rest2.takeWhile (fun c => c ≠ '/')),
                   path := rest2.dropWhile (fun c => c ≠ '/') ++ ['/'] } : GoURL)
            rw [List.takeWhile_append, List.dropWhile_append]
            by_cases hdw : rest2.dropWhile (fun c => c ≠ '/') = []
            · have htw : rest2.takeWhile (fun c => c ≠ '/') = rest2 := by
                have hsum := List.takeWhile_append_dropWhile
                  (fun c => decide (c ≠ '/')) rest2
                rw [hdw, List.append_nil] at hsum
                exact hsum
              have hlen : (rest2.takeWhile (fun c => c ≠ '/')).length = rest2.length := by
                rw [htw]
              have hemp : (rest2.dropWhile (fun c => c ≠ '/')).isEmpty = true := by
                rw [hdw]; rfl
              rw [if_pos hlen, if_pos hemp]
              have t1 : (['/'] : Str).takeWhile (fun c => c ≠ '/') = [] := by decide
              have t2 : (['/'] : Str).dropWhile (fun c => c ≠ '/') = ['/'] := by decide
              rw [t1, t2, List.append_nil, htw, hdw]
              rfl
            · have hlen : ¬((rest2.takeWhile (fun c => c ≠ '/')).length = rest2.length) := by
                intro hcon
                have hsum := List.takeWhile_append_dropWhile
                  (fun c => decide (c ≠ '/')) rest2
                have hL := congrArg List.length hsum
                rw [List.length_append, hcon] at hL
                have h0 : (rest2.dropWhile (fun c => c ≠ '/')).length = 0 := by omega
                exact hdw (List.eq_nil_of_length_eq_zero h0)
              have hemp : ¬((rest2.dropWhile (fun c => c ≠ '/')).isEmpty = true) := by
                simpa [List.isEmpty_iff] using hdw
              rw [if_neg hlen, if_neg hemp]
          · have hcc' : ¬(((c1 :: c2 :: rest2) ++ ['/']).take 2 = ['/', '/']) := by
              simp only [List.cons_append, List.take_succ_cons] at hcc ⊢
              exact hcc
            rw [if_neg hcc', if_neg hcc]
            rfl

/-- Construction via `NewClient` builds the same client from a base URL without the trailing
slash as from the same URL with it. -/
theorem NewClient_append_slash (b : Str) (hbne : b ≠ [])
    (hb : hasSuffixSlash b = false) :
    NewClient (b ++ ['/']) = NewClient b := by
  unfold NewClient
  have hne2 : ¬(b ++ ['/'] = []) := by simp
  rw [if_neg hne2, if_neg hbne]
  rw [urlParseL_append_slash b hb]
  cases hp : urlParseL b with
  | error e => rfl
  | ok u =>
    dsimp only [Except.map]
    have h1 : hasSuffixSlash (u.path ++ ['/']) = true := by
      unfold hasSuffixSlash
      rw [List.getLast?_concat]
      rfl
    have h3 : hasSuffixSlash u.path = false := by
      rcases hq : u.path with _ | ⟨c, l⟩
      · rfl
      · rw [← hq]
        have hsuf : u.path <:+ b := urlParseL_path_suffix b u hp
        have hlast := getLast?_of_suffix hsuf (by rw [hq]; simp)
        unfold hasSuffixSlash at hb ⊢
        rw [← hlast]
        exact hb
    simp [h1, h3]

/-- C5: `NewClient` rejects the blank base URL and propagates parse errors;
a successfully built client's base path always ends in a slash; and a base
URL lacking the trailing separator yields the very same client — hence the
same resolution of every relative path — as the same URL with it. -/
theorem c5_NewClient_normalization (b : Str) :
    (NewClient [] = .error "ChartMuseum API - base URL can not be blank") ∧
    (∀ e, b ≠ [] → urlParseL b = .error e → NewClient b = .error e) ∧
    (∀ cl, NewClient b = .ok cl → hasSuffixSlash cl.baseURL.path = true) ∧
    (b ≠ [] → hasSuffixSlash b = false → NewClient (b ++ ['/']) = NewClient b) ∧
    (b ≠ [] → hasSuffixSlash b = false → ∀ ref cl cl2,
      NewClient b = .ok cl → NewClient (b ++ ['/']) = .ok cl2 →
      cl2.baseURL.Parse ref = cl.baseURL.Parse ref) := by
  refine ⟨rfl, ?_, ?_, ?_, ?_⟩
  · intro e hne hp
    unfold NewClient
    rw [if_neg hne, hp]
  · intro cl hcl
    unfold NewClient at hcl
    by_cases hne : b = []
    · rw [if_pos hne] at hcl; exact absurd hcl (by simp)
    · rw [if_neg hne] at hcl
      cases hp : urlParseL b with
      | error e => rw [hp] at hcl; exact absurd hcl (by simp)
      | ok u =>
        rw [hp] at hcl
        dsimp only at hcl
        have hbase : cl.baseURL =
            if hasSuffixSlash u.path then u else { u with path := u.path ++ ['/'] } := by
          have := (Except.ok.injEq _ _).mp hcl
          rw [← this]
        rw [hbase]
        by_cases hs : hasSuffixSlash u.path = true
        · rw [if_pos hs]; exact hs
        · rw [if_neg hs]
          unfold hasSuffixSlash
          rw [List.getLast?_concat]
          rfl
  · intro hne hb
    exact NewClient_append_slash b hne hb
  · intro hne hb ref cl cl2 h1 h2
    rw [NewClient_append_slash b hne hb, h1] at h2
    have hcl : cl = cl2 := by injection h2
    rw [hcl]

/-- The client the C5 witness builds. -/
def c5clientW : Client :=
  { baseURL := { scheme := some "http".data, host := some "example.com".data,
                 path := "/charts/".data },
    userAgent := "go-chartmuseum" }

/-- C5 (witness): the blank base URL and an unparsable one fail; a parsed
base URL is stored slash-terminated; trailing-slash input variation builds
the same client. -/
theorem c5_witness :
    NewClient [] = .error "ChartMuseum API - base URL can not be blank" ∧
    NewClient (':' :: 'x' :: []) = .error "missing protocol scheme" ∧
    NewClient "http://example.com/charts".data = .ok c5clientW ∧
    hasSuffixSlash c5clientW.baseURL.path = true ∧
    NewClient ("http://example.com/charts".data ++ ['/']) =
      NewClient "http://example.com/charts".data := by
  have hok : NewClient "http://example.com/charts".data = .ok c5clientW := by decide
  refine ⟨(c5_NewClient_normalization []).1, ?_, hok, ?_, ?_⟩
  · exact (c5_NewClient_normalization (':' :: 'x' :: [])).2.1
      "missing protocol scheme" (by decide) (by decide)
  · exact (c5_NewClient_normalization "http://example.com/charts".data).2.2.1
      c5clientW hok
  · exact (c5_NewClient_normalization "http://example.com/charts".data).2.2.2.1
      (by decide) (by decide)

end CM
